import Mathlib

/-!
Verification of the development-environment bootstrap script `setup_dev.py`.

The script is modelled over an explicit filesystem state `FS`: a list of
existing directory paths and an association list from file paths to their
contents.  External shell commands (the git invocations made through
`run_command`) are modelled by an environment `Env` mapping a command string
and the current filesystem to the resulting filesystem together with the
success flag of the command (the `returncode == 0` test of `run_command`).
Printing is modelled only where a claim speaks about it: `verify_structure`
returns the list of report lines it prints.
-/

set_option autoImplicit false

namespace SetupDev

/-- Filesystem state: existing directories and files with their contents.
`os.path.exists p` holds when `p` is a directory or a file. -/
structure FS where
  dirs : List String
  files : List (String × String)
deriving DecidableEq

/-- `os.path.exists`: a path exists when it is a directory or a file. -/
def pathExists (fs : FS) (p : String) : Bool :=
  fs.dirs.contains p || (fs.files.lookup p).isSome

/-- Write `v` to file `p`: update the entry in place or append a new one. -/
def setFile : List (String × String) → String → String → List (String × String)
  | [], p, v => [(p, v)]
  | (q, w) :: rest, p, v =>
    if q = p then (p, v) :: rest else (q, w) :: setFile rest p v

/-- The external world reached through the shell: a command transforms the
filesystem and reports success or failure. -/
def Env : Type := String → FS → FS × Bool

/-- `run_command`: invoke the shell command and return the new state and
whether the command exited with status 0. -/
def run_command (env : Env) (cmd : String) (fs : FS) : FS × Bool :=
  env cmd fs

/-- Split a path at the separator character. -/
def splitSlash : List Char → List (List Char)
  | [] => [[]]
  | c :: cs =>
    if c = '/' then [] :: splitSlash cs
    else
      match splitSlash cs with
      | [] => [[c]]
      | g :: gs => (c :: g) :: gs

/-- The successive joins of path components: the ancestors of a path,
innermost last, the path itself included. -/
def prefixJoins (acc : String) : List String → List String
  | [] => [acc]
  | c :: cs => acc :: prefixJoins (acc ++ "/" ++ c) cs

/-- All directories `os.makedirs d` has to create, outermost first. -/
def ancestorPaths (d : String) : List String :=
  match (splitSlash d.data).map (fun g => String.mk g) with
  | [] => []
  | c :: cs => prefixJoins c cs

/-- Create one directory level: error when the path is an existing file
(`FileExistsError`), skip when the directory exists, create it otherwise. -/
def mkdirOne (fs : FS) (p : String) : Except String FS :=
  if (fs.files.lookup p).isSome then Except.error ("FileExistsError: " ++ p)
  else if fs.dirs.contains p then Except.ok fs
  else Except.ok { dirs := fs.dirs ++ [p], files := fs.files }

/-- Create the listed directory levels in order, stopping at the first error. -/
def mkdirsList : FS → List String → Except String FS
  | fs, [] => Except.ok fs
  | fs, p :: ps =>
    match mkdirOne fs p with
    | Except.error e => Except.error e
    | Except.ok fs2 => mkdirsList fs2 ps

/-- `os.makedirs d, exist_ok=True`: create the missing ancestors of `d` and
`d` itself; raise when a needed level exists as a file. -/
def makedirs (fs : FS) (d : String) : Except String FS :=
  mkdirsList fs (ancestorPaths d)

/-- The directory list of `create_directories`. -/
def dirs : List String := ["src", "scenes", "test/unit", "test/integration"]

/-- The loop of `create_directories`: `os.makedirs(d, exist_ok=True)` for each
listed directory; an exception propagates. -/
def createDirsLoop : FS → List String → Except String FS
  | fs, [] => Except.ok fs
  | fs, d :: ds =>
    match makedirs fs d with
    | Except.error e => Except.error e
    | Except.ok fs2 => createDirsLoop fs2 ds

/-- `create_directories`. -/
def create_directories (fs : FS) : Except String FS :=
  createDirsLoop fs dirs

/-- The five paths checked by `verify_structure`. -/
def required_paths : List String :=
  ["addons/aerobeat-core/src/interfaces/input_provider.gd",
   "addons/aerobeat-input-mediapipe/src/providers/mediapipe_provider.gd",
   "src",
   "scenes",
   "test"]

/-- The loop of `verify_structure`: one report line per path, and the
`all_exist` flag cleared whenever a path is missing. -/
def verifyLoop (fs : FS) : List String → Bool → List String × Bool
  | [], all_exist => ([], all_exist)
  | p :: rest, all_exist =>
    if pathExists fs p then
      (("  ✓ " ++ p) :: (verifyLoop fs rest all_exist).1,
       (verifyLoop fs rest all_exist).2)
    else
      (("  ✗ " ++ p ++ " (will be created)") :: (verifyLoop fs rest false).1,
       (verifyLoop fs rest false).2)

/-- `verify_structure`: the printed report lines and the returned flag. -/
def verify_structure (fs : FS) : List String × Bool :=
  verifyLoop fs required_paths true

/-- The `(source, destination)` pairs of `setup_submodules`. -/
def submodules : List (String × String) :=
  [("../aerobeat-core", "addons/aerobeat-core"),
   ("../aerobeat-input-mediapipe-python", "addons/aerobeat-input-mediapipe")]

/-- The `git submodule add` command for one pair. -/
def addCmd (source dest : String) : String :=
  "git submodule add \"" ++ source ++ "\" \"" ++ dest ++ "\""

/-- The `git submodule update --init --recursive` command. -/
def updateCmd : String := "git submodule update --init --recursive"

/-- The first add command issued by the script. -/
def addCmd1 : String := addCmd "../aerobeat-core" "addons/aerobeat-core"

/-- The second add command issued by the script. -/
def addCmd2 : String :=
  addCmd "../aerobeat-input-mediapipe-python" "addons/aerobeat-input-mediapipe"

/-- The submodule loop of `setup_submodules`: for each pair whose destination
does not exist, run the add command; return false at the first failure.
The result carries the success flag, the filesystem, and the trace of shell
commands actually invoked. -/
def submoduleAddLoop (env : Env) : FS → List (String × String) → Bool × FS × List String
  | fs, [] => (true, fs, [])
  | fs, (source, dest) :: rest =>
    if pathExists fs dest then submoduleAddLoop env fs rest
    else
      match run_command env (addCmd source dest) fs with
      | (fs2, true) =>
        ((submoduleAddLoop env fs2 rest).1,
         (submoduleAddLoop env fs2 rest).2.1,
         addCmd source dest :: (submoduleAddLoop env fs2 rest).2.2)
      | (fs2, false) => (false, fs2, [addCmd source dest])

/-- `setup_submodules`: warn and return false when `.git` is missing,
otherwise add the missing submodules and run one recursive update. -/
def setup_submodules (env : Env) (fs : FS) : Bool × FS × List String :=
  if pathExists fs ".git" then
    match submoduleAddLoop env fs submodules with
    | (true, fs2, tr) =>
      match run_command env updateCmd fs2 with
      | (fs3, ok) => (ok, fs3, tr ++ [updateCmd])
    | (false, fs2, tr) => (false, fs2, tr)
  else (false, fs, [])

/-- Boolean test that `pat` is a leading segment of the second list. -/
def listPrefixEq : List Char → List Char → Bool
  | [], _ => true
  | _ :: _, [] => false
  | a :: as, b :: bs => a = b && listPrefixEq as bs

/-- Boolean substring occurrence: `pat` starts at some position of the text,
the Python `pat in text` test. -/
def containsSubAux (pat : List Char) : List Char → Bool
  | [] => listPrefixEq pat []
  | c :: rest => listPrefixEq pat (c :: rest) || containsSubAux pat rest

/-- The Python substring test `pat in s`. -/
def containsStr (s pat : String) : Bool :=
  containsSubAux pat.data s.data

/-- Number of positions of the text where `pat` starts. -/
def occCount (pat : List Char) : List Char → Nat
  | [] => if listPrefixEq pat [] then 1 else 0
  | c :: rest => (if listPrefixEq pat (c :: rest) then 1 else 0) + occCount pat rest

/-- The fixed plugin block appended by `update_project_plugins`. -/
def plugin_section : String :=
  "\n[editor_plugins]\nenabled=PackedStringArray(\"res://addons/aerobeat-core/plugin.cfg\", \"res://addons/aerobeat-input-mediapipe/plugin.cfg\")\n"

/-- The project descriptor file name. -/
def project_file : String := "project.godot"

/-- The literal substring checked before appending. -/
def marker : String := "[editor_plugins]"

/-- `update_project_plugins`, summarised as a total function: false when no
file content exists at `project.godot`, unchanged success when the marker
substring occurs in the content, append otherwise.  The exceptional path of
the source — the descriptor path existing as a directory, where
`open(project_file, "r")` raises `IsADirectoryError` — is modelled by
`update_project_plugins_run` below, which agrees with this function whenever
the descriptor path is absent or is a regular file. -/
def update_project_plugins (fs : FS) : Bool × FS :=
  match fs.files.lookup project_file with
  | none => (false, fs)
  | some content =>
    if containsStr content marker then (true, fs)
    else
      (true,
       { dirs := fs.dirs,
         files := setFile fs.files project_file (content ++ plugin_section) })

/-- One run of `update_project_plugins` with the raising `open` modelled:
when the `os.path.exists` check fails, the not-found error is printed and
false returned with the state untouched; when the path exists but holds no
file content (it is a directory), `open(project_file, "r")` raises
`IsADirectoryError`, which propagates; otherwise the marker check and the
append behave as in the source. -/
def update_project_plugins_run (fs : FS) : Except String (Bool × FS) :=
  if pathExists fs project_file = false then Except.ok (false, fs)
  else
    match fs.files.lookup project_file with
    | none => Except.error ("IsADirectoryError: " ++ project_file)
    | some content =>
      if containsStr content marker then Except.ok (true, fs)
      else
        Except.ok
          (true,
           { dirs := fs.dirs,
             files := setFile fs.files project_file (content ++ plugin_section) })

/-- The four phases of `main`, in source order. -/
inductive Phase
  | createDirs
  | submods
  | verify
  | plugins
deriving DecidableEq

/-- `main`: the four phases in a fixed order.  A boolean failure of a phase
is only printed; an exception of `create_directories` propagates and aborts
the run.  Returns the phases that were executed and the final state. -/
def main (env : Env) (fs : FS) : List Phase × Except String FS :=
  match create_directories fs with
  | Except.error e => ([Phase.createDirs], Except.error e)
  | Except.ok fs1 =>
    ([Phase.createDirs, Phase.submods, Phase.verify, Phase.plugins],
     Except.ok (update_project_plugins (setup_submodules env fs1).2.1).2)

/-- Replay of a command trace: the filesystem after running the commands in
order from a start state. -/
def replayStates (env : Env) : FS → List String → FS
  | fs, [] => fs
  | fs, c :: tr => replayStates env (env c fs).1 tr

/-- Replay of a command trace: whether every command in the trace succeeds
when run in order from a start state. -/
def replayOk (env : Env) : FS → List String → Bool
  | _, [] => true
  | fs, c :: tr => (env c fs).2 && replayOk env (env c fs).1 tr

/-- An environment that never removes an existing path, as the git commands
issued by the script behave. -/
def EnvPreserves (env : Env) : Prop :=
  ∀ c s p, pathExists s p = true → pathExists (env c s).1 p = true

/-- Environment whose commands all succeed and change nothing. -/
def envId : Env := fun _ s => (s, true)

/-- Environment where the recursive update succeeds but also refreshes a
fetch log under `.git`, as a real update does; other commands change
nothing. -/
def badEnv : Env := fun c s =>
  if c = updateCmd then
    ({ dirs := s.dirs,
       files := setFile s.files ".git/FETCH_HEAD"
         (((s.files.lookup ".git/FETCH_HEAD").getD "") ++ "fetch\n") }, true)
  else (s, true)

/-! ## Helper lemmas -/

theorem contains_of_mem {l : List String} {a : String} (h : a ∈ l) :
    l.contains a = true :=
  List.elem_eq_true_of_mem h

theorem pathExists_of_mem_dirs {fs : FS} {p : String} (h : p ∈ fs.dirs) :
    pathExists fs p = true := by
  simp [pathExists]
  exact Or.inl h

theorem setFile_lookup_self (l : List (String × String)) (p v : String) :
    (setFile l p v).lookup p = some v := by
  induction l with
  | nil => simp [setFile, List.lookup]
  | cons e rest ih =>
    obtain ⟨q, w⟩ := e
    by_cases hqp : q = p
    · subst hqp
      simp [setFile, List.lookup]
    · have hb : (p == q) = false := beq_eq_false_iff_ne.mpr (Ne.symm hqp)
      simp [setFile, hqp, List.lookup, hb, ih]

theorem setFile_lookup_ne (l : List (String × String)) (p v q : String)
    (h : q ≠ p) : (setFile l p v).lookup q = l.lookup q := by
  have hb : (q == p) = false := beq_eq_false_iff_ne.mpr h
  induction l with
  | nil => simp [setFile, List.lookup, hb]
  | cons e rest ih =>
    obtain ⟨k, w⟩ := e
    by_cases hkp : k = p
    · subst hkp
      simp [setFile, List.lookup, hb]
    · simp [setFile, hkp, List.lookup, ih]

theorem containsSubAux_append_right (pat a b : List Char)
    (h : containsSubAux pat b = true) :
    containsSubAux pat (a ++ b) = true := by
  induction a with
  | nil => simpa using h
  | cons c cs ih => simp [containsSubAux, ih]

theorem marker_in_plugin_section :
    containsSubAux marker.data plugin_section.data = true := by
  decide

theorem containsStr_append_section (content : String) :
    containsStr (content ++ plugin_section) marker = true := by
  unfold containsStr
  rw [String.data_append]
  exact containsSubAux_append_right _ _ _ marker_in_plugin_section

/-- Branch analysis of `update_project_plugins` for a present descriptor
file: unchanged success when the marker substring occurs, append otherwise. -/
theorem update_project_plugins_cases (fs : FS) (content : String)
    (h : fs.files.lookup project_file = some content) :
    (containsStr content marker = true → update_project_plugins fs = (true, fs)) ∧
    (containsStr content marker = false →
      update_project_plugins fs =
        (true, { dirs := fs.dirs,
                 files := setFile fs.files project_file (content ++ plugin_section) })) := by
  constructor <;> intro hm <;> simp [update_project_plugins, h, hm]

/-- Missing-descriptor branch of `update_project_plugins`. -/
theorem update_project_plugins_none (fs : FS)
    (h : fs.files.lookup project_file = none) :
    update_project_plugins fs = (false, fs) := by
  simp [update_project_plugins, h]

/-! ## Claim theorems -/

/-- C1: for every prior content of `project.godot`, `update_project_plugins`
returns success and leaves the state completely unchanged when the literal
substring `[editor_plugins]` occurs anywhere in the content (even outside a
real section header), and otherwise returns success with exactly the fixed
plugin block appended to the file. -/
theorem update_project_plugins_marker_iff (fs : FS) (content : String)
    (h : fs.files.lookup project_file = some content) :
    (containsStr content marker = true → update_project_plugins fs = (true, fs)) ∧
    (containsStr content marker = false →
      update_project_plugins fs =
        (true, { dirs := fs.dirs,
                 files := setFile fs.files project_file (content ++ plugin_section) })) :=
  update_project_plugins_cases fs content h

/-- C1 witness: with the marker present mid-line, the call succeeds and
changes nothing. -/
theorem update_project_plugins_marker_iff_witness :
    update_project_plugins (FS.mk [] [("project.godot", "x[editor_plugins]y")]) =
      (true, FS.mk [] [("project.godot", "x[editor_plugins]y")]) :=
  (update_project_plugins_marker_iff
    (FS.mk [] [("project.godot", "x[editor_plugins]y")]) "x[editor_plugins]y"
    rfl).1 (by decide)

/-- When the descriptor path exists but holds no file content (it is a
directory), the run raises `IsADirectoryError` from the read `open` rather
than returning false. -/
theorem update_project_plugins_run_isadir (fs : FS)
    (hp : pathExists fs project_file = true)
    (hf : fs.files.lookup project_file = none) :
    update_project_plugins_run fs
      = Except.error ("IsADirectoryError: " ++ project_file) := by
  simp [update_project_plugins_run, hp, hf]

/-- Whenever the descriptor path is absent or is a regular file — that is,
outside the raising directory case — the run agrees with the total summary
`update_project_plugins`. -/
theorem update_project_plugins_run_agrees (fs : FS)
    (h : fs.files.lookup project_file = none →
      pathExists fs project_file = false) :
    update_project_plugins_run fs = Except.ok (update_project_plugins fs) := by
  cases hl : fs.files.lookup project_file with
  | none =>
    simp [update_project_plugins_run, update_project_plugins, h hl, hl]
  | some content =>
    have hp : pathExists fs project_file = true := by
      simp [pathExists, hl]
    by_cases hm : containsStr content marker <;>
      simp [update_project_plugins_run, update_project_plugins, hp, hl, hm]

/-- C8: when the path `project.godot` does not exist, the `os.path.exists`
check fails, and `update_project_plugins` returns false after printing the
not-found error with the filesystem completely unchanged — no file is
created or modified, no exception arises: the error branch is atomic.
(When the path exists but as a directory, the exists check passes and the
read `open` raises `IsADirectoryError` instead, a case outside this branch
and proved as `update_project_plugins_run_isadir`.) -/
theorem update_project_plugins_not_found (fs : FS)
    (h : pathExists fs project_file = false) :
    update_project_plugins_run fs = Except.ok (false, fs) := by
  simp [update_project_plugins_run, h]

/-- C8 witness: on an empty filesystem the exists check fails and the run
returns false with the state unchanged. -/
theorem update_project_plugins_not_found_witness :
    update_project_plugins_run (FS.mk [] []) = Except.ok (false, FS.mk [] []) :=
  update_project_plugins_not_found (FS.mk [] []) (by decide)

/-- C9: when `.git` does not exist, `setup_submodules` returns false with an
unchanged filesystem and invokes no shell command at all. -/
theorem setup_submodules_no_git (env : Env) (fs : FS)
    (h : pathExists fs ".git" = false) :
    setup_submodules env fs = (false, fs, []) := by
  simp [setup_submodules, h]

/-- C9 witness: on an empty filesystem no command runs and the call fails. -/
theorem setup_submodules_no_git_witness :
    setup_submodules envId (FS.mk [] []) = (false, FS.mk [] [], []) :=
  setup_submodules_no_git envId (FS.mk [] []) (by decide)

theorem verifyLoop_fst (fs : FS) (l : List String) (b : Bool) :
    (verifyLoop fs l b).1 =
      l.map (fun p =>
        if pathExists fs p then "  ✓ " ++ p
        else "  ✗ " ++ p ++ " (will be created)") := by
  induction l generalizing b with
  | nil => simp [verifyLoop]
  | cons p rest ih =>
    by_cases hp : pathExists fs p <;> simp [verifyLoop, hp, ih]

theorem verifyLoop_snd (fs : FS) (l : List String) (b : Bool) :
    (verifyLoop fs l b).2 = (b && l.all (pathExists fs)) := by
  induction l generalizing b with
  | nil => simp [verifyLoop]
  | cons p rest ih =>
    by_cases hp : pathExists fs p <;> simp [verifyLoop, hp, ih]

/-- C4: `verify_structure` checks exactly the five fixed paths, reports a
checkmark line for each existing path and a cross line for each missing one,
touches no state (it is a pure function of the filesystem), and returns true
exactly when all five paths exist. -/
theorem verify_structure_report (fs : FS) :
    required_paths.length = 5 ∧
    (verify_structure fs).1 =
      required_paths.map (fun p =>
        if pathExists fs p then "  ✓ " ++ p
        else "  ✗ " ++ p ++ " (will be created)") ∧
    ((verify_structure fs).2 = true ↔
      ∀ p ∈ required_paths, pathExists fs p = true) := by
  refine ⟨rfl, verifyLoop_fst fs required_paths true, ?_⟩
  rw [verify_structure, verifyLoop_snd]
  simp [List.all_eq_true]

theorem mkdirOne_ok (fs fs2 : FS) (p : String)
    (h : mkdirOne fs p = Except.ok fs2) :
    fs2.files = fs.files ∧ fs.files.lookup p = none ∧
    (∀ x ∈ fs.dirs, x ∈ fs2.dirs) ∧ p ∈ fs2.dirs := by
  unfold mkdirOne at h
  by_cases h1 : (fs.files.lookup p).isSome
  · simp [h1] at h
  · have hnone : fs.files.lookup p = none := Option.not_isSome_iff_eq_none.mp h1
    by_cases h2 : p ∈ fs.dirs
    · simp [h1, h2] at h
      subst h
      exact ⟨rfl, hnone, fun x hx => hx, h2⟩
    · simp [h1, h2] at h
      subst h
      refine ⟨rfl, hnone, fun x hx => ?_, ?_⟩
      · exact List.mem_append_left _ hx
      · exact List.mem_append_right _ (List.mem_singleton.mpr rfl)

theorem mkdirsList_ok (l : List String) (fs fs' : FS)
    (h : mkdirsList fs l = Except.ok fs') :
    (∀ x ∈ fs.dirs, x ∈ fs'.dirs) ∧ fs'.files = fs.files ∧
    (∀ p ∈ l, p ∈ fs'.dirs ∧ fs'.files.lookup p = none) := by
  induction l generalizing fs with
  | nil =>
    simp [mkdirsList] at h
    subst h
    exact ⟨fun x hx => hx, rfl, by simp⟩
  | cons p ps ih =>
    unfold mkdirsList at h
    cases hm : mkdirOne fs p with
    | error e => rw [hm] at h; cases h
    | ok fs2 =>
      rw [hm] at h
      obtain ⟨hfiles2, hnone, hsub2, hp2⟩ := mkdirOne_ok fs fs2 p hm
      obtain ⟨hsub, hfiles, hrest⟩ := ih fs2 h
      refine ⟨fun x hx => hsub x (hsub2 x hx), hfiles.trans hfiles2, ?_⟩
      intro q hq
      rcases List.mem_cons.mp hq with hq | hq
      · subst hq
        exact ⟨hsub q hp2, by rw [hfiles, hfiles2]; exact hnone⟩
      · exact hrest q hq

theorem createDirsLoop_ok (l : List String) (fs fs' : FS)
    (h : createDirsLoop fs l = Except.ok fs') :
    (∀ x ∈ fs.dirs, x ∈ fs'.dirs) ∧ fs'.files = fs.files ∧
    (∀ d ∈ l, ∀ p ∈ ancestorPaths d, p ∈ fs'.dirs ∧ fs'.files.lookup p = none) := by
  induction l generalizing fs with
  | nil =>
    simp [createDirsLoop] at h
    subst h
    exact ⟨fun x hx => hx, rfl, by simp⟩
  | cons d ds ih =>
    unfold createDirsLoop at h
    cases hm : makedirs fs d with
    | error e => rw [hm] at h; cases h
    | ok fs2 =>
      rw [hm] at h
      obtain ⟨hsub2, hfiles2, hanc⟩ := mkdirsList_ok (ancestorPaths d) fs fs2 hm
      obtain ⟨hsub, hfiles, hrest⟩ := ih fs2 h
      refine ⟨fun x hx => hsub x (hsub2 x hx), hfiles.trans hfiles2, ?_⟩
      intro e he p hp
      rcases List.mem_cons.mp he with he | he
      · subst he
        obtain ⟨hpd, hpn⟩ := hanc p hp
        exact ⟨hsub p hpd, by rw [hfiles]; exact hpn⟩
      · exact hrest e he p hp

/-- C6: on normal return, `create_directories` has made all four listed
directories exist, has not touched any file, and has removed no existing
directory. -/
theorem create_directories_ok (fs fs' : FS)
    (h : create_directories fs = Except.ok fs') :
    pathExists fs' "src" = true ∧ pathExists fs' "scenes" = true ∧
    pathExists fs' "test/unit" = true ∧ pathExists fs' "test/integration" = true ∧
    fs'.files = fs.files ∧ (∀ x ∈ fs.dirs, x ∈ fs'.dirs) := by
  obtain ⟨hsub, hfiles, hall⟩ := createDirsLoop_ok dirs fs fs' h
  refine ⟨?_, ?_, ?_, ?_, hfiles, hsub⟩
  · exact pathExists_of_mem_dirs (hall "src" (by decide) "src" (by decide)).1
  · exact pathExists_of_mem_dirs (hall "scenes" (by decide) "scenes" (by decide)).1
  · exact pathExists_of_mem_dirs (hall "test/unit" (by decide) "test/unit" (by decide)).1
  · exact pathExists_of_mem_dirs
      (hall "test/integration" (by decide) "test/integration" (by decide)).1

/-- C6 witness: from the empty filesystem the four directories (and the
implicit parent `test`) are created and no file appears. -/
theorem create_directories_ok_witness :
    pathExists (FS.mk ["src", "scenes", "test", "test/unit", "test/integration"] []) "src" = true ∧
    pathExists (FS.mk ["src", "scenes", "test", "test/unit", "test/integration"] []) "scenes" = true ∧
    pathExists (FS.mk ["src", "scenes", "test", "test/unit", "test/integration"] []) "test/unit" = true ∧
    pathExists (FS.mk ["src", "scenes", "test", "test/unit", "test/integration"] []) "test/integration" = true ∧
    (FS.mk ["src", "scenes", "test", "test/unit", "test/integration"] []).files = [] := by
  have h := create_directories_ok (FS.mk [] [])
    (FS.mk ["src", "scenes", "test", "test/unit", "test/integration"] []) rfl
  exact ⟨h.1, h.2.1, h.2.2.1, h.2.2.2.1, h.2.2.2.2.1⟩

theorem mkdirsList_noop (l : List String) (fs : FS)
    (h : ∀ p ∈ l, p ∈ fs.dirs ∧ fs.files.lookup p = none) :
    mkdirsList fs l = Except.ok fs := by
  induction l with
  | nil => rfl
  | cons p ps ih =>
    obtain ⟨hp, hf⟩ := h p (List.mem_cons_self p ps)
    unfold mkdirsList mkdirOne
    simp [hf, hp]
    exact ih fun q hq => h q (List.mem_cons_of_mem p hq)

theorem createDirsLoop_noop (l : List String) (fs : FS)
    (h : ∀ d ∈ l, ∀ p ∈ ancestorPaths d, p ∈ fs.dirs ∧ fs.files.lookup p = none) :
    createDirsLoop fs l = Except.ok fs := by
  induction l with
  | nil => rfl
  | cons d ds ih =>
    unfold createDirsLoop makedirs
    rw [mkdirsList_noop (ancestorPaths d) fs (h d (List.mem_cons_self d ds))]
    exact ih fun e he p hp => h e (List.mem_cons_of_mem d he) p hp

theorem create_directories_idem (fs fs' : FS)
    (h : create_directories fs = Except.ok fs') :
    create_directories fs' = Except.ok fs' := by
  obtain ⟨_, _, hall⟩ := createDirsLoop_ok dirs fs fs' h
  exact createDirsLoop_noop dirs fs' hall

theorem update_project_plugins_idem (fs fs' : FS)
    (h : update_project_plugins fs = (true, fs')) :
    update_project_plugins fs' = (true, fs') := by
  cases hl : fs.files.lookup project_file with
  | none =>
    rw [update_project_plugins_none fs hl] at h
    simp at h
  | some content =>
    cases hm : containsStr content marker with
    | true =>
      have h1 := (update_project_plugins_cases fs content hl).1 hm
      rw [h1] at h
      injection h with hb hfs
      subst hfs
      exact h1
    | false =>
      have h1 := (update_project_plugins_cases fs content hl).2 hm
      rw [h1] at h
      injection h with hb hfs
      subst hfs
      exact (update_project_plugins_cases _ (content ++ plugin_section)
        (setFile_lookup_self fs.files project_file (content ++ plugin_section))).1
        (containsStr_append_section content)

theorem setup_submodules_steady (env : Env) (fs : FS)
    (hgit : pathExists fs ".git" = true)
    (h1 : pathExists fs "addons/aerobeat-core" = true)
    (h2 : pathExists fs "addons/aerobeat-input-mediapipe" = true)
    (hupd : run_command env updateCmd fs = (fs, true)) :
    setup_submodules env fs = (true, fs, [updateCmd]) := by
  simp [setup_submodules, submoduleAddLoop, submodules, hgit, h1, h2, hupd]

/-- C2 (amended): `create_directories` and `update_project_plugins` are
idempotent by their existence checks alone; `setup_submodules` skips the two
add commands when the destination paths exist but unconditionally re-invokes
the recursive submodule update, so a second run leaves the state unchanged
only under the extra assumption that the external update command is a no-op
on the converged state. -/
theorem operations_idempotent_amended :
    (∀ fs fs', create_directories fs = Except.ok fs' →
      create_directories fs' = Except.ok fs') ∧
    (∀ fs fs', update_project_plugins fs = (true, fs') →
      update_project_plugins fs' = (true, fs')) ∧
    (∀ (env : Env) fs, pathExists fs ".git" = true →
      pathExists fs "addons/aerobeat-core" = true →
      pathExists fs "addons/aerobeat-input-mediapipe" = true →
      run_command env updateCmd fs = (fs, true) →
      setup_submodules env fs = (true, fs, [updateCmd])) :=
  ⟨create_directories_idem, update_project_plugins_idem, setup_submodules_steady⟩

/-- C2 counterexample: against an environment where the recursive update
succeeds but, as a real `git submodule update` does, also rewrites fetch
metadata under `.git`, a second run of `setup_submodules` immediately after a
successful first run does not leave the state as the first run left it,
because the update command is re-invoked rather than skipped. -/
theorem setup_submodules_not_idempotent :
    (setup_submodules badEnv
        (FS.mk [".git", "addons/aerobeat-core", "addons/aerobeat-input-mediapipe"] [])).1
      = true ∧
    (setup_submodules badEnv
        (FS.mk [".git", "addons/aerobeat-core", "addons/aerobeat-input-mediapipe"] [])).2.1
      = FS.mk [".git", "addons/aerobeat-core", "addons/aerobeat-input-mediapipe"]
          [(".git/FETCH_HEAD", "fetch\n")] ∧
    (setup_submodules badEnv
        (FS.mk [".git", "addons/aerobeat-core", "addons/aerobeat-input-mediapipe"]
          [(".git/FETCH_HEAD", "fetch\n")])).1 = true ∧
    (setup_submodules badEnv
        (FS.mk [".git", "addons/aerobeat-core", "addons/aerobeat-input-mediapipe"]
          [(".git/FETCH_HEAD", "fetch\n")])).2.1
      ≠ FS.mk [".git", "addons/aerobeat-core", "addons/aerobeat-input-mediapipe"]
          [(".git/FETCH_HEAD", "fetch\n")] := by
  refine ⟨rfl, rfl, rfl, ?_⟩
  decide

/-- C2 witness: the three amended idempotence statements at concrete states:
the converged directory layout, a descriptor file already holding the marker,
and a converged submodule state under an environment whose update is a no-op
there. -/
theorem operations_idempotent_amended_witness :
    create_directories (FS.mk ["src", "scenes", "test", "test/unit", "test/integration"] [])
      = Except.ok (FS.mk ["src", "scenes", "test", "test/unit", "test/integration"] []) ∧
    update_project_plugins (FS.mk [] [("project.godot", "[editor_plugins]")])
      = (true, FS.mk [] [("project.godot", "[editor_plugins]")]) ∧
    setup_submodules envId
        (FS.mk [".git", "addons/aerobeat-core", "addons/aerobeat-input-mediapipe"] [])
      = (true, FS.mk [".git", "addons/aerobeat-core", "addons/aerobeat-input-mediapipe"] [],
         [updateCmd]) := by
  refine ⟨?_, ?_, ?_⟩
  · exact operations_idempotent_amended.1 (FS.mk [] [])
      (FS.mk ["src", "scenes", "test", "test/unit", "test/integration"] []) rfl
  · exact operations_idempotent_amended.2.1 (FS.mk [] [("project.godot", "[editor_plugins]")])
      (FS.mk [] [("project.godot", "[editor_plugins]")]) (by decide)
  · exact operations_idempotent_amended.2.2 envId
      (FS.mk [".git", "addons/aerobeat-core", "addons/aerobeat-input-mediapipe"] [])
      (by decide) (by decide) (by decide) rfl

/-- C3 counterexample: when the path `src` exists as a file, the
`os.makedirs` call of `create_directories` raises, the exception propagates
out of `main`, and the three later phases never run — so a failing phase does
stop the later phases, contrary to the claim. -/
theorem main_aborts_on_create_failure :
    main envId (FS.mk [] [("src", "x")])
      = ([Phase.createDirs], Except.error "FileExistsError: src") ∧
    (main envId (FS.mk [] [("src", "x")])).1
      ≠ [Phase.createDirs, Phase.submods, Phase.verify, Phase.plugins] := by
  refine ⟨rfl, ?_⟩
  decide

/-- C3 (amended): whenever `create_directories` returns normally (no listed
path or ancestor of one exists as a file), `main` executes the four phases in
the fixed order exactly once each and finishes normally; boolean failures of
`setup_submodules`, `verify_structure` or `update_project_plugins` are only
printed and never stop the later phases. -/
theorem main_runs_all_phases (env : Env) (fs fs1 : FS)
    (h : create_directories fs = Except.ok fs1) :
    (main env fs).1 = [Phase.createDirs, Phase.submods, Phase.verify, Phase.plugins] ∧
    (main env fs).2
      = Except.ok (update_project_plugins (setup_submodules env fs1).2.1).2 := by
  simp [main, h]

/-- C3 witness: from the empty filesystem `setup_submodules` fails (no
`.git`) and `update_project_plugins` fails (no `project.godot`), yet all four
phases run in order. -/
theorem main_runs_all_phases_witness :
    (main envId (FS.mk [] [])).1
      = [Phase.createDirs, Phase.submods, Phase.verify, Phase.plugins] :=
  (main_runs_all_phases envId (FS.mk [] [])
    (FS.mk ["src", "scenes", "test", "test/unit", "test/integration"] []) rfl).1

set_option maxRecDepth 40000 in
/-- C7: in the appending branch, the new descriptor content is exactly the
old content followed by the fixed block (the old content is preserved as a
prefix), every other file keeps its content, the directories are untouched,
and the appended block names exactly two `plugin.cfg` extension paths. -/
theorem update_project_plugins_append_frame (fs : FS) (content : String)
    (h : fs.files.lookup project_file = some content)
    (hm : containsStr content marker = false) :
    (update_project_plugins fs).1 = true ∧
    (update_project_plugins fs).2.dirs = fs.dirs ∧
    (update_project_plugins fs).2.files.lookup project_file
      = some (content ++ plugin_section) ∧
    (∀ p, p ≠ project_file →
      (update_project_plugins fs).2.files.lookup p = fs.files.lookup p) ∧
    occCount "plugin.cfg".data plugin_section.data = 2 ∧
    containsStr plugin_section "res://addons/aerobeat-core/plugin.cfg" = true ∧
    containsStr plugin_section "res://addons/aerobeat-input-mediapipe/plugin.cfg" = true := by
  rw [(update_project_plugins_cases fs content h).2 hm]
  refine ⟨rfl, rfl, setFile_lookup_self fs.files project_file (content ++ plugin_section),
    ?_, by decide, by decide, by decide⟩
  intro p hp
  exact setFile_lookup_ne fs.files project_file (content ++ plugin_section) p hp

/-- C7 witness: appending to a one-line descriptor extends that file and
leaves a second file untouched. -/
theorem update_project_plugins_append_frame_witness :
    (update_project_plugins
        (FS.mk [] [("project.godot", "x"), ("other.txt", "o")])).2.files.lookup project_file
      = some ("x" ++ plugin_section) ∧
    (update_project_plugins
        (FS.mk [] [("project.godot", "x"), ("other.txt", "o")])).2.files.lookup "other.txt"
      = some "o" := by
  have h := update_project_plugins_append_frame
    (FS.mk [] [("project.godot", "x"), ("other.txt", "o")]) "x" rfl (by decide)
  exact ⟨h.2.2.1, (h.2.2.2.1 "other.txt" (by decide)).trans rfl⟩

theorem update_project_plugins_preserves (fs : FS) (p : String)
    (h : pathExists fs p = true) :
    pathExists (update_project_plugins fs).2 p = true := by
  cases hl : fs.files.lookup project_file with
  | none => rw [update_project_plugins_none fs hl]; exact h
  | some content =>
    cases hm : containsStr content marker with
    | true => rw [(update_project_plugins_cases fs content hl).1 hm]; exact h
    | false =>
      rw [(update_project_plugins_cases fs content hl).2 hm]
      simp only [pathExists, Bool.or_eq_true] at h ⊢
      rcases h with hd | hf
      · exact Or.inl hd
      · by_cases hp : p = project_file
        · subst hp
          right
          rw [setFile_lookup_self]
          rfl
        · right
          rw [setFile_lookup_ne fs.files project_file (content ++ plugin_section) p hp]
          exact hf

theorem submoduleAddLoop_preserves (env : Env) (henv : EnvPreserves env)
    (l : List (String × String)) (fs : FS) (p : String)
    (h : pathExists fs p = true) :
    pathExists (submoduleAddLoop env fs l).2.1 p = true := by
  induction l generalizing fs with
  | nil => exact h
  | cons sd rest ih =>
    obtain ⟨source, dest⟩ := sd
    by_cases hd : pathExists fs dest = true
    · simpa [submoduleAddLoop, hd] using ih fs h
    · have hd' : pathExists fs dest = false := by simpa using hd
      cases he : env (addCmd source dest) fs with
      | mk fs2 ok =>
        have h2 : pathExists fs2 p = true := by
          have hh := henv (addCmd source dest) fs p h
          rw [he] at hh
          exact hh
        cases ok
        · simpa [submoduleAddLoop, hd', run_command, he] using h2
        · simpa [submoduleAddLoop, hd', run_command, he] using ih fs2 h2

theorem setup_submodules_preserves (env : Env) (henv : EnvPreserves env)
    (fs : FS) (p : String) (h : pathExists fs p = true) :
    pathExists (setup_submodules env fs).2.1 p = true := by
  by_cases hg : pathExists fs ".git" = true
  · have hp2 := submoduleAddLoop_preserves env henv submodules fs p h
    cases hsl : submoduleAddLoop env fs submodules with
    | mk ok rest =>
      obtain ⟨fs2, tr⟩ := rest
      rw [hsl] at hp2
      cases ok
      · simpa [setup_submodules, hg, hsl] using hp2
      · cases hu : env updateCmd fs2 with
        | mk fs3 okU =>
          have hp3 : pathExists fs3 p = true := by
            have hh := henv updateCmd fs2 p hp2
            rw [hu] at hh
            exact hh
          simpa [setup_submodules, hg, hsl, run_command, hu] using hp3
  · have hg' : pathExists fs ".git" = false := by simpa using hg
    simpa [setup_submodules, hg'] using h

/-- C10: whenever `main` finishes normally and the external commands never
remove an existing path, the five directories `src`, `scenes`, `test`,
`test/unit` and `test/integration` all exist in the final state; the parent
`test` is created implicitly by the recursive creation of its children. -/
theorem main_directory_layout (env : Env) (fs fs' : FS)
    (henv : EnvPreserves env) (h : (main env fs).2 = Except.ok fs') :
    pathExists fs' "src" = true ∧ pathExists fs' "scenes" = true ∧
    pathExists fs' "test" = true ∧ pathExists fs' "test/unit" = true ∧
    pathExists fs' "test/integration" = true := by
  unfold main at h
  cases hc : create_directories fs with
  | error e => rw [hc] at h; simp at h
  | ok fs1 =>
    rw [hc] at h
    simp at h
    obtain ⟨_, _, hall⟩ := createDirsLoop_ok dirs fs fs1 hc
    have base : ∀ q, q ∈ fs1.dirs → pathExists fs' q = true := by
      intro q hq
      rw [← h]
      exact update_project_plugins_preserves _ q
        (setup_submodules_preserves env henv fs1 q (pathExists_of_mem_dirs hq))
    refine ⟨?_, ?_, ?_, ?_, ?_⟩
    · exact base "src" (hall "src" (by decide) "src" (by decide)).1
    · exact base "scenes" (hall "scenes" (by decide) "scenes" (by decide)).1
    · exact base "test" (hall "test/unit" (by decide) "test" (by decide)).1
    · exact base "test/unit" (hall "test/unit" (by decide) "test/unit" (by decide)).1
    · exact base "test/integration"
        (hall "test/integration" (by decide) "test/integration" (by decide)).1

/-- C10 witness: from the empty filesystem, even though the submodule and
plugin phases fail, the five directories exist after `main`. -/
theorem main_directory_layout_witness :
    pathExists (FS.mk ["src", "scenes", "test", "test/unit", "test/integration"] []) "test" = true ∧
    pathExists (FS.mk ["src", "scenes", "test", "test/unit", "test/integration"] []) "test/unit" = true := by
  have h := main_directory_layout envId (FS.mk [] [])
    (FS.mk ["src", "scenes", "test", "test/unit", "test/integration"] [])
    (fun _ _ _ hp => hp) rfl
  exact ⟨h.2.2.1, h.2.2.2.1⟩

/-- C5: with `.git` present and external commands that never remove an
existing path, `setup_submodules` only ever invokes the two fixed add
commands and the one recursive update; it invokes the first add exactly when
`addons/aerobeat-core` is missing and never invokes the second add when
`addons/aerobeat-input-mediapipe` already exists; the update is invoked at
most once and always last; and the call returns true exactly when every
invoked command succeeded and the update was reached — equivalently, a
failing add or update makes it return false at once, no command running
after the failure. -/
theorem setup_submodules_spec (env : Env) (fs : FS)
    (henv : EnvPreserves env) (hgit : pathExists fs ".git" = true) :
    (∀ c ∈ (setup_submodules env fs).2.2,
      c = addCmd1 ∨ c = addCmd2 ∨ c = updateCmd) ∧
    (addCmd1 ∈ (setup_submodules env fs).2.2 ↔
      pathExists fs "addons/aerobeat-core" = false) ∧
    (pathExists fs "addons/aerobeat-input-mediapipe" = true →
      addCmd2 ∉ (setup_submodules env fs).2.2) ∧
    (setup_submodules env fs).2.2.count updateCmd ≤ 1 ∧
    (updateCmd ∈ (setup_submodules env fs).2.2 →
      (setup_submodules env fs).2.2.getLast? = some updateCmd) ∧
    ((setup_submodules env fs).1 = true ↔
      (replayOk env fs (setup_submodules env fs).2.2 = true ∧
       updateCmd ∈ (setup_submodules env fs).2.2)) ∧
    replayOk env fs (setup_submodules env fs).2.2.dropLast = true := by
  have ne1u : addCmd1 ≠ updateCmd := by decide
  have ne2u : addCmd2 ≠ updateCmd := by decide
  have ne12 : addCmd1 ≠ addCmd2 := by decide
  by_cases h1 : pathExists fs "addons/aerobeat-core" = true
  · by_cases h2 : pathExists fs "addons/aerobeat-input-mediapipe" = true
    · cases hu : env updateCmd fs with
      | mk fs3 okU =>
        have hss : setup_submodules env fs = (okU, fs3, [updateCmd]) := by
          simp [setup_submodules, submoduleAddLoop, submodules, run_command,
            hgit, h1, h2, hu]
        rw [hss]
        refine ⟨?_, ?_, ?_, ?_, ?_, ?_, ?_⟩
        · intro c hc
          simp at hc
          subst hc
          exact Or.inr (Or.inr rfl)
        · simp [h1, ne1u]
        · intro _
          show addCmd2 ∉ [updateCmd]
          simp [ne2u]
        · show List.count updateCmd [updateCmd] ≤ 1
          decide
        · intro _
          rfl
        · simp [replayOk, hu]
        · rfl
    · have h2f : pathExists fs "addons/aerobeat-input-mediapipe" = false := by
        simpa using h2
      cases he2 : env (addCmd "../aerobeat-input-mediapipe-python"
          "addons/aerobeat-input-mediapipe") fs with
      | mk fs2 ok2 =>
        have he2c : env addCmd2 fs = (fs2, ok2) := he2
        cases ok2 with
        | false =>
          have hss : setup_submodules env fs = (false, fs2, [addCmd2]) := by
            simp [setup_submodules, submoduleAddLoop, submodules, run_command,
              addCmd2, hgit, h1, h2f, he2]
          rw [hss]
          refine ⟨?_, ?_, ?_, ?_, ?_, ?_, ?_⟩
          · intro c hc
            simp at hc
            subst hc
            exact Or.inr (Or.inl rfl)
          · simp [h1, ne12]
          · intro hcon
            rw [hcon] at h2f
            cases h2f
          · show List.count updateCmd [addCmd2] ≤ 1
            decide
          · intro hmem
            simp at hmem
            exact absurd hmem (Ne.symm ne2u)
          · constructor
            · intro hfalse
              cases hfalse
            · intro hr
              have hmem := hr.2
              simp at hmem
              exact absurd hmem (Ne.symm ne2u)
          · rfl
        | true =>
          cases hu : env updateCmd fs2 with
          | mk fs3 okU =>
            have hss : setup_submodules env fs = (okU, fs3, [addCmd2, updateCmd]) := by
              simp [setup_submodules, submoduleAddLoop, submodules, run_command,
                addCmd2, hgit, h1, h2f, he2, hu]
            rw [hss]
            refine ⟨?_, ?_, ?_, ?_, ?_, ?_, ?_⟩
            · intro c hc
              simp at hc
              rcases hc with hc | hc <;> subst hc
              · exact Or.inr (Or.inl rfl)
              · exact Or.inr (Or.inr rfl)
            · simp [h1, ne12, ne1u]
            · intro hcon
              rw [hcon] at h2f
              cases h2f
            · show List.count updateCmd [addCmd2, updateCmd] ≤ 1
              decide
            · intro _
              rfl
            · simp [replayOk, he2c, hu]
            · simp [replayOk, he2c]
  · have h1f : pathExists fs "addons/aerobeat-core" = false := by simpa using h1
    cases he1 : env (addCmd "../aerobeat-core" "addons/aerobeat-core") fs with
    | mk fs2 ok1 =>
      have he1c : env addCmd1 fs = (fs2, ok1) := he1
      cases ok1 with
      | false =>
        have hss : setup_submodules env fs = (false, fs2, [addCmd1]) := by
          simp [setup_submodules, submoduleAddLoop, submodules, run_command,
            addCmd1, hgit, h1f, he1]
        rw [hss]
        refine ⟨?_, ?_, ?_, ?_, ?_, ?_, ?_⟩
        · intro c hc
          simp at hc
          subst hc
          exact Or.inl rfl
        · simp [h1f]
        · intro _
          show addCmd2 ∉ [addCmd1]
          simp [Ne.symm ne12]
        · show List.count updateCmd [addCmd1] ≤ 1
          decide
        · intro hmem
          simp at hmem
          exact absurd hmem (Ne.symm ne1u)
        · constructor
          · intro hfalse
            cases hfalse
          · intro hr
            have hmem := hr.2
            simp at hmem
            exact absurd hmem (Ne.symm ne1u)
        · rfl
      | true =>
        have hp2 : ∀ q, pathExists fs q = true → pathExists fs2 q = true := by
          intro q hq
          have hh := henv (addCmd "../aerobeat-core" "addons/aerobeat-core") fs q hq
          rw [he1] at hh
          exact hh
        by_cases h2 : pathExists fs2 "addons/aerobeat-input-mediapipe" = true
        · cases hu : env updateCmd fs2 with
          | mk fs3 okU =>
            have hss : setup_submodules env fs = (okU, fs3, [addCmd1, updateCmd]) := by
              simp [setup_submodules, submoduleAddLoop, submodules, run_command,
                addCmd1, hgit, h1f, he1, h2, hu]
            rw [hss]
            refine ⟨?_, ?_, ?_, ?_, ?_, ?_, ?_⟩
            · intro c hc
              simp at hc
              rcases hc with hc | hc <;> subst hc
              · exact Or.inl rfl
              · exact Or.inr (Or.inr rfl)
            · simp [h1f]
            · intro _
              show addCmd2 ∉ [addCmd1, updateCmd]
              simp [Ne.symm ne12, ne2u]
            · show List.count updateCmd [addCmd1, updateCmd] ≤ 1
              decide
            · intro _
              rfl
            · simp [replayOk, he1c, hu]
            · simp [replayOk, he1c]
        · have h2f : pathExists fs2 "addons/aerobeat-input-mediapipe" = false := by
            simpa using h2
          have hinit2 : pathExists fs "addons/aerobeat-input-mediapipe" = false := by
            cases hx : pathExists fs "addons/aerobeat-input-mediapipe" with
            | false => rfl
            | true =>
              rw [hp2 _ hx] at h2f
              cases h2f
          cases he2 : env (addCmd "../aerobeat-input-mediapipe-python"
              "addons/aerobeat-input-mediapipe") fs2 with
          | mk fs3 ok2 =>
            have he2c : env addCmd2 fs2 = (fs3, ok2) := he2
            cases ok2 with
            | false =>
              have hss : setup_submodules env fs = (false, fs3, [addCmd1, addCmd2]) := by
                simp [setup_submodules, submoduleAddLoop, submodules, run_command,
                  addCmd1, addCmd2, hgit, h1f, he1, h2f, he2]
              rw [hss]
              refine ⟨?_, ?_, ?_, ?_, ?_, ?_, ?_⟩
              · intro c hc
                simp at hc
                rcases hc with hc | hc <;> subst hc
                · exact Or.inl rfl
                · exact Or.inr (Or.inl rfl)
              · simp [h1f]
              · intro hcon
                rw [hcon] at hinit2
                cases hinit2
              · show List.count updateCmd [addCmd1, addCmd2] ≤ 1
                decide
              · intro hmem
                simp at hmem
                rcases hmem with hmem | hmem
                · exact absurd hmem (Ne.symm ne1u)
                · exact absurd hmem (Ne.symm ne2u)
              · constructor
                · intro hfalse
                  cases hfalse
                · intro hr
                  have hmem := hr.2
                  simp at hmem
                  rcases hmem with hmem | hmem
                  · exact absurd hmem (Ne.symm ne1u)
                  · exact absurd hmem (Ne.symm ne2u)
              · simp [replayOk, he1c]
            | true =>
              cases hu : env updateCmd fs3 with
              | mk fs4 okU =>
                have hss : setup_submodules env fs
                    = (okU, fs4, [addCmd1, addCmd2, updateCmd]) := by
                  simp [setup_submodules, submoduleAddLoop, submodules, run_command,
                    addCmd1, addCmd2, hgit, h1f, he1, h2f, he2, hu]
                rw [hss]
                refine ⟨?_, ?_, ?_, ?_, ?_, ?_, ?_⟩
                · intro c hc
                  simp at hc
                  rcases hc with hc | hc | hc <;> subst hc
                  · exact Or.inl rfl
                  · exact Or.inr (Or.inl rfl)
                  · exact Or.inr (Or.inr rfl)
                · simp [h1f]
                · intro hcon
                  rw [hcon] at hinit2
                  cases hinit2
                · show List.count updateCmd [addCmd1, addCmd2, updateCmd] ≤ 1
                  decide
                · intro _
                  rfl
                · simp [replayOk, he1c, he2c, hu]
                · simp [replayOk, he1c, he2c]

/-- C5 witness: with `.git` present, both destinations missing, and an
environment whose commands all succeed without changing the state, the call
returns true and its trace is the two adds followed by the single update. -/
theorem setup_submodules_spec_witness :
    (setup_submodules envId (FS.mk [".git"] [])).1 = true ∧
    addCmd1 ∈ (setup_submodules envId (FS.mk [".git"] [])).2.2 ∧
    updateCmd ∈ (setup_submodules envId (FS.mk [".git"] [])).2.2 := by
  have h := setup_submodules_spec envId (FS.mk [".git"] [])
    (fun _ _ _ hp => hp) (by decide)
  refine ⟨?_, ?_, ?_⟩
  · exact h.2.2.2.2.2.1.mpr ⟨by decide, by decide⟩
  · exact h.2.1.mpr (by decide)
  · exact (by decide : updateCmd ∈ (setup_submodules envId (FS.mk [".git"] [])).2.2)

end SetupDev
